import Mathlib

/-!
Verification of the Melimemots word-search core
(`src/app/services/game.service.ts`).

The selection state machine and the word matcher are embedded as pure
Lean functions over an explicit `GameState`.  The TypeScript code mutates
`Cell` objects that are aliased between the grid matrix and the
`selectedCells` gesture list; since a cell's identity is its `(row, col)`
pair and its `letter`/`row`/`col` never change after grid creation, that
object mutation is modelled by updating the grid entry with the matching
coordinates, while the gesture list stores a snapshot of the cell.
Gesture-list entries are only ever read for `letter`/`row`/`col`, so the
snapshot is observationally faithful.  JavaScript numbers are modelled as
`Int` (all arithmetic here is small-integer), strings as `List Char`,
and the insertion-ordered JS `Set` of found words as a duplicate-free
`List` with dedup-on-add.
-/

/-- `Cell` from game.service.ts. -/
structure Cell where
  letter : Char
  row : Int
  col : Int
  isSelected : Bool
  isFound : Bool
deriving DecidableEq, Repr

/-- `WordSolution` from game.service.ts (`mot`, `start`, `direction`). -/
structure WordSolution where
  mot : List Char
  start : Int × Int
  direction : Int × Int
deriving DecidableEq, Repr

/-- `GridResponse` from game.service.ts. -/
structure GridResponse where
  grille : List (List Char)
  solution : List WordSolution
deriving DecidableEq, Repr

/-- `GameState` from game.service.ts, together with the service's private
`solution` field (set on load, read by `checkWord`), carried alongside. -/
structure GameState where
  grid : List (List Cell)
  words : List (List Char)
  foundWords : List (List Char)
  selectedCells : List Cell
  isSelecting : Bool
  lockedDirection : Option (Int × Int)
  solution : List WordSolution
deriving DecidableEq, Repr

/-- `DirectionsEnum` from game.service.ts. -/
inductive DirectionsEnum where
  | H
  | V
  | D1
  | D2
deriving DecidableEq, Repr

/-- `directionCoordinates` from game.service.ts. -/
def directionCoordinates : DirectionsEnum → Int × Int
  | .H => (0, 1)
  | .V => (1, 0)
  | .D1 => (-1, 1)
  | .D2 => (1, 1)

/-- `String.prototype.toUpperCase`, on the `List Char` string model. -/
def upper (w : List Char) : List Char :=
  w.map Char.toUpper

/-- Mutation of the (unique) grid cell with the given coordinates: the
model of a write through an aliased `Cell` object reference. -/
def updCell (r c : Int) (f : Cell → Cell) (g : List (List Cell)) : List (List Cell) :=
  g.map (List.map (fun cell => if cell.row == r && cell.col == c then f cell else cell))

/-- Grid construction in `initializeGame`: each letter becomes a cell
carrying its row/column indices, unselected and unfound. -/
def mkGrid (grille : List (List Char)) : List (List Cell) :=
  grille.enum.map (fun p =>
    p.2.enum.map (fun q =>
      { letter := q.2, row := (p.1 : Int), col := (q.1 : Int),
        isSelected := false, isFound := false }))

/-- `initializeGame` from game.service.ts: fresh state from a response. -/
def initGame (resp : GridResponse) : GameState :=
  { grid := mkGrid resp.grille,
    words := resp.solution.map (fun sol => upper sol.mot),
    foundWords := [],
    selectedCells := [],
    isSelecting := false,
    lockedDirection := none,
    solution := resp.solution }

/-- The initial `gameStateSubject` value (before any grid is loaded);
the service's `solution` field starts empty as well. -/
def initialState : GameState :=
  { grid := [], words := [], foundWords := [], selectedCells := [],
    isSelecting := false, lockedDirection := none, solution := [] }

/-- `startSelection` from game.service.ts: mark the cell selected, make
it the whole gesture, start selecting, no locked direction. -/
def startSelection (s : GameState) (cell : Cell) : GameState :=
  { s with
    grid := updCell cell.row cell.col (fun c => { c with isSelected := true }) s.grid,
    selectedCells := [{ cell with isSelected := true }],
    isSelecting := true,
    lockedDirection := none }

/-- The duplicate test of `continueSelection`:
`state.selectedCells.some(c => c.row === cell.row && c.col === cell.col)`. -/
def isDup (s : GameState) (cell : Cell) : Bool :=
  s.selectedCells.any (fun c => c.row == cell.row && c.col == cell.col)

/-- The adjacency test of `continueSelection`:
`(rowDiff <= 1 && colDiff <= 1) && (rowDiff + colDiff > 0)`. -/
def isAdjacentTo (cell lastCell : Cell) : Bool :=
  let rowDiff := (cell.row - lastCell.row).natAbs
  let colDiff := (cell.col - lastCell.col).natAbs
  (decide (rowDiff ≤ 1) && decide (colDiff ≤ 1)) && decide (0 < rowDiff + colDiff)

/-- The step of `continueSelection`:
`(Math.sign(cell.row - lastCell.row), Math.sign(cell.col - lastCell.col))`. -/
def stepSign (cell lastCell : Cell) : Int × Int :=
  ((cell.row - lastCell.row).sign, (cell.col - lastCell.col).sign)

/-- The locked-direction test of `continueSelection`: accept when no
direction is locked, or when the step equals the locked direction. -/
def dirMatches (locked : Option (Int × Int)) (d : Int × Int) : Bool :=
  match locked with
  | some l => l == d
  | none => true

/-- `continueSelection` from game.service.ts.  The `getLast? = none`
branch is unreachable while `isSelecting` holds (the service always has a
nonempty gesture there; the TS code would fault on it). -/
def continueSelection (s : GameState) (cell : Cell) : GameState :=
  if s.isSelecting = false then s
  else
    match s.selectedCells.getLast? with
    | none => s
    | some lastCell =>
      if isDup s cell then s
      else if isAdjacentTo cell lastCell = false then s
      else if dirMatches s.lockedDirection (stepSign cell lastCell) = false then s
      else
        { s with
          grid := updCell cell.row cell.col (fun c => { c with isSelected := true }) s.grid,
          selectedCells := s.selectedCells ++ [{ cell with isSelected := true }],
          lockedDirection :=
            if s.selectedCells.length == 1 then some (stepSign cell lastCell)
            else s.lockedDirection }

/-- The per-solution test inside `checkWord`'s loop: the letter equality
(solution word equals the candidate, forward or reversed) and then the
endpoint test — `matches` checks only the FIRST candidate cell against
the solution start; `matchesReverse` checks the last cell against the
start and the first cell against the computed end. -/
def solMatch (normalWord reversedWord : List Char) (first last : Cell)
    (sol : WordSolution) : Bool :=
  let solWord := upper sol.mot
  let startRow := sol.start.1
  let startCol := sol.start.2
  let dr := sol.direction.1
  let dc := sol.direction.2
  let endRow := startRow + dr * ((sol.mot.length : Int) - 1)
  let endCol := startCol + dc * ((sol.mot.length : Int) - 1)
  let matchesFwd := first.row == startRow && first.col == startCol
  let matchesReverse := last.row == startRow && last.col == startCol &&
    (first.row == endRow && first.col == endCol)
  (solWord == normalWord || solWord == reversedWord) && (matchesFwd || matchesReverse)

/-- `checkWord` from game.service.ts: first solution (in list order)
passing `solMatch` yields its uppercased word; otherwise `null`.
The empty-candidate case is unreachable (callers pass 2+ cells). -/
def checkWord (word : List Char) (cells : List Cell)
    (solutions : List WordSolution) : Option (List Char) :=
  match cells.head?, cells.getLast? with
  | some first, some last =>
    (solutions.find? (solMatch (upper word) (upper word.reverse) first last)).map
      (fun sol => upper sol.mot)
  | _, _ => none

/-- The `forEach` of `clearSelection`: clear `isSelected` on every
gestured cell (through the grid aliases). -/
def clearSelGrid (g : List (List Cell)) (L : List Cell) : List (List Cell) :=
  L.foldl (fun acc c => updCell c.row c.col (fun cc => { cc with isSelected := false }) acc) g

/-- `clearSelection` from game.service.ts. -/
def clearSelection (s : GameState) : GameState :=
  { s with
    grid := clearSelGrid s.grid s.selectedCells,
    selectedCells := [],
    isSelecting := false,
    lockedDirection := none }

/-- The `forEach` of `endSelection`'s match path: set `isFound`, clear
`isSelected` on every gestured cell (through the grid aliases). -/
def markFoundGrid (g : List (List Cell)) (L : List Cell) : List (List Cell) :=
  L.foldl
    (fun acc c =>
      updCell c.row c.col (fun cc => { cc with isFound := true, isSelected := false }) acc) g

/-- `Set.prototype.add` on the insertion-ordered set model. -/
def addFound (fw : List (List Char)) (w : List Char) : List (List Char) :=
  if fw.contains w then fw else fw ++ [w]

/-- `endSelection` from game.service.ts. -/
def endSelection (s : GameState) : GameState :=
  if s.isSelecting = false ∨ s.selectedCells.length < 2 then clearSelection s
  else
    match checkWord (s.selectedCells.map (fun c => c.letter)) s.selectedCells s.solution with
    | some foundWord =>
      { s with
        grid := markFoundGrid s.grid s.selectedCells,
        foundWords := addFound s.foundWords (upper foundWord),
        selectedCells := [],
        isSelecting := false,
        lockedDirection := none }
    | none => clearSelection s

/-- `isGameComplete` from game.service.ts. -/
def isGameComplete (s : GameState) : Bool :=
  s.foundWords.length == s.words.length

/-- `resetGame` from game.service.ts: the subject is reset to the fresh
value; the service's private `solution` field is not touched. -/
def resetGame (s : GameState) : GameState :=
  { grid := [], words := [], foundWords := [], selectedCells := [],
    isSelecting := false, lockedDirection := none, solution := s.solution }

/-- The discrete input events of the selection state machine. -/
inductive GameEvent where
  | start (cell : Cell)
  | extend (cell : Cell)
  | finish
deriving DecidableEq, Repr

/-- One input event applied to the state. -/
def stepEvent (s : GameState) : GameEvent → GameState
  | .start c => startSelection s c
  | .extend c => continueSelection s c
  | .finish => endSelection s

/-- A whole event sequence applied to the state. -/
def runEvents (s : GameState) (es : List GameEvent) : GameState :=
  es.foldl stepEvent s

/-- The eight 8-neighbourhood sign vectors a gesture step can take. -/
def eightDirs : List (Int × Int) :=
  [(-1, -1), (-1, 0), (-1, 1), (0, -1), (0, 1), (1, -1), (1, 0), (1, 1)]

/-- Modelled from the spec (§4.2, §8): the endpoint check as the spec
words it — a forward match requires BOTH the candidate's first cell at
the solution's start and its last cell at the computed end; a reverse
match requires the last cell at the start and the first cell at the
computed end.  Stated here for comparison with the source's `solMatch`,
whose forward branch checks only the first cell. -/
def specEndpointOk (sol : WordSolution) (first last : Cell) : Bool :=
  let endRow := sol.start.1 + sol.direction.1 * ((sol.mot.length : Int) - 1)
  let endCol := sol.start.2 + sol.direction.2 * ((sol.mot.length : Int) - 1)
  (first.row == sol.start.1 && first.col == sol.start.2 &&
    (last.row == endRow && last.col == endCol)) ||
  (last.row == sol.start.1 && last.col == sol.start.2 &&
    (first.row == endRow && first.col == endCol))

/-- The solution's expected last row, `start + direction x (len(word)-1)`. -/
def expectedEndRow (sol : WordSolution) : Int :=
  sol.start.1 + sol.direction.1 * ((sol.mot.length : Int) - 1)

/-- The solution's expected last column. -/
def expectedEndCol (sol : WordSolution) : Int :=
  sol.start.2 + sol.direction.2 * ((sol.mot.length : Int) - 1)

/-- Does some gestured cell carry this cell's coordinates? -/
def coordHit (L : List Cell) (cc : Cell) : Bool :=
  L.any (fun c => cc.row == c.row && cc.col == c.col)

/- Concrete inputs used by counterexamples and witnesses. -/

/-- Solution "AB" at (0,0) going right. -/
def solAB : WordSolution := { mot := ['A', 'B'], start := (0, 0), direction := (0, 1) }

/-- A cell holding 'A' at (0,0). -/
def cAB0 : Cell := { letter := 'A', row := 0, col := 0, isSelected := false, isFound := false }

/-- A cell holding 'B' at (5,5), far from solAB's expected end (0,1). -/
def cAB5 : Cell := { letter := 'B', row := 5, col := 5, isSelected := false, isFound := false }

/-- Candidate spelling "AB" whose first cell sits on solAB's start but
whose last cell sits nowhere near its computed end. -/
def cellsAB : List Cell := [cAB0, cAB5]

/-- Solution "AB" at (1,2) going down. -/
def s1C3 : WordSolution := { mot := ['A', 'B'], start := (1, 2), direction := (1, 0) }

/-- Solution "BA" at (1,1) going right. -/
def s2C3 : WordSolution := { mot := ['B', 'A'], start := (1, 1), direction := (0, 1) }

/-- Candidate cells (1,2)='A' then (1,1)='B'; its endpoints correspond to
s2C3 traversed backwards. -/
def cellsC3 : List Cell :=
  [ { letter := 'A', row := 1, col := 2, isSelected := false, isFound := false },
    { letter := 'B', row := 1, col := 1, isSelected := false, isFound := false } ]

/-- A one-row grid "ABC" with its solution entry. -/
def respABC : GridResponse :=
  { grille := [['A', 'B', 'C']],
    solution := [ { mot := ['A', 'B', 'C'], start := (0, 0), direction := (0, 1) } ] }

/-- Grid cell (0,0) of respABC, as the input adapter hands it over. -/
def cA : Cell := { letter := 'A', row := 0, col := 0, isSelected := false, isFound := false }

/-- Grid cell (0,1) of respABC. -/
def cB : Cell := { letter := 'B', row := 0, col := 1, isSelected := false, isFound := false }

/-- Grid cell (0,2) of respABC. -/
def cC : Cell := { letter := 'C', row := 0, col := 2, isSelected := false, isFound := false }

/-- Solution "CAT" at (0,0) going right. -/
def solCAT : WordSolution := { mot := ['C', 'A', 'T'], start := (0, 0), direction := (0, 1) }

/-- The three cells of "CAT" along row 0. -/
def cellsCAT : List Cell :=
  [ { letter := 'C', row := 0, col := 0, isSelected := false, isFound := false },
    { letter := 'A', row := 0, col := 1, isSelected := false, isFound := false },
    { letter := 'T', row := 0, col := 2, isSelected := false, isFound := false } ]

/- Helper lemmas. -/

/-- `solMatch` unfolded into its letter and endpoint conditions. -/
theorem solMatch_iff (normalWord reversedWord : List Char) (first last : Cell)
    (sol : WordSolution) :
    solMatch normalWord reversedWord first last sol = true ↔
      (upper sol.mot = normalWord ∨ upper sol.mot = reversedWord) ∧
      ((first.row = sol.start.1 ∧ first.col = sol.start.2) ∨
       (last.row = sol.start.1 ∧ last.col = sol.start.2 ∧
        first.row = expectedEndRow sol ∧ first.col = expectedEndCol sol)) := by
  simp [solMatch, expectedEndRow, expectedEndCol, Bool.and_eq_true, Bool.or_eq_true,
    and_assoc]

/-- `checkWord` on a nonempty candidate is the first passing solution. -/
theorem checkWord_eq (word : List Char) (cells : List Cell) (sols : List WordSolution)
    (first last : Cell) (h1 : cells.head? = some first) (h2 : cells.getLast? = some last) :
    checkWord word cells sols =
      (sols.find? (solMatch (upper word) (upper word.reverse) first last)).map
        (fun sol => upper sol.mot) := by
  unfold checkWord
  rw [h1, h2]

/-- If a member passes and every letter-passing member has the same word,
`checkWord` returns that word. -/
theorem checkWord_eq_of_uniq (word : List Char) (cells : List Cell)
    (sols : List WordSolution) (sol : WordSolution) (first last : Cell)
    (h1 : cells.head? = some first) (h2 : cells.getLast? = some last)
    (hmem : sol ∈ sols)
    (hpass : solMatch (upper word) (upper word.reverse) first last sol = true)
    (huniq : ∀ s' ∈ sols,
      (upper s'.mot = upper word ∨ upper s'.mot = upper word.reverse) →
      upper s'.mot = upper sol.mot) :
    checkWord word cells sols = some (upper sol.mot) := by
  rw [checkWord_eq word cells sols first last h1 h2]
  cases hfind : sols.find? (solMatch (upper word) (upper word.reverse) first last) with
  | none =>
    exact absurd hpass (List.find?_eq_none.mp hfind sol hmem)
  | some s' =>
    have hm := List.mem_of_find?_eq_some hfind
    have hp := List.find?_some hfind
    have hl := ((solMatch_iff _ _ _ _ _).mp hp).1
    simp [huniq s' hm hl]

/-- `Int.sign` takes only the values -1, 0, 1. -/
theorem int_sign_cases (x : Int) : x.sign = -1 ∨ x.sign = 0 ∨ x.sign = 1 := by
  rcases x with n | n
  · cases n
    · simp [Int.sign]
    · simp [Int.sign]
  · simp [Int.sign]

/-- An accepted step's sign vector is one of the eight neighbours. -/
theorem stepSign_mem_eightDirs (cell lastCell : Cell)
    (hadj : isAdjacentTo cell lastCell = true) :
    stepSign cell lastCell ∈ eightDirs := by
  have hnz : ¬(cell.row - lastCell.row = 0 ∧ cell.col - lastCell.col = 0) := by
    rintro ⟨hr, hc⟩
    simp [isAdjacentTo, hr, hc] at hadj
  have hx := int_sign_cases (cell.row - lastCell.row)
  have hy := int_sign_cases (cell.col - lastCell.col)
  unfold stepSign eightDirs
  rcases hx with h | h | h <;> rcases hy with h' | h' | h' <;> simp [h, h']
  exact (hnz ⟨Int.sign_eq_zero_iff_zero.mp h, Int.sign_eq_zero_iff_zero.mp h'⟩).elim

/-- `continueSelection` with no active gesture is a no-op. -/
theorem contSel_not_selecting (s : GameState) (cell : Cell)
    (h : s.isSelecting = false) : continueSelection s cell = s := by
  simp [continueSelection, h]

/-- `continueSelection` on an (unreachable) empty gesture is a no-op. -/
theorem contSel_empty (s : GameState) (cell : Cell)
    (h : s.selectedCells.getLast? = none) : continueSelection s cell = s := by
  unfold continueSelection
  split
  · rfl
  · rw [h]

/-- A repeated cell is dropped. -/
theorem contSel_ret_dup (s : GameState) (cell : Cell)
    (hdup : isDup s cell = true) : continueSelection s cell = s := by
  unfold continueSelection
  split
  · rfl
  · cases h : s.selectedCells.getLast? with
    | none => rfl
    | some lastCell => simp [hdup]

/-- A non-adjacent cell is dropped. -/
theorem contSel_ret_far (s : GameState) (cell lastCell : Cell)
    (hlast : s.selectedCells.getLast? = some lastCell)
    (hadj : isAdjacentTo cell lastCell = false) : continueSelection s cell = s := by
  unfold continueSelection
  split
  · rfl
  · rw [hlast]
    simp [hadj]

/-- A cell breaking the locked direction is dropped. -/
theorem contSel_ret_dir (s : GameState) (cell lastCell : Cell)
    (hlast : s.selectedCells.getLast? = some lastCell)
    (hdir : dirMatches s.lockedDirection (stepSign cell lastCell) = false) :
    continueSelection s cell = s := by
  unfold continueSelection
  split
  · rfl
  · rw [hlast]
    by_cases hdup : isDup s cell
    · simp [hdup]
    · simp [hdup, hdir]

/-- The accepted extension, spelled out. -/
theorem contSel_accept (s : GameState) (cell lastCell : Cell)
    (hsel : s.isSelecting = true)
    (hlast : s.selectedCells.getLast? = some lastCell)
    (hdup : isDup s cell = false)
    (hadj : isAdjacentTo cell lastCell = true)
    (hdir : dirMatches s.lockedDirection (stepSign cell lastCell) = true) :
    continueSelection s cell =
      { s with
        grid := updCell cell.row cell.col (fun c => { c with isSelected := true }) s.grid,
        selectedCells := s.selectedCells ++ [{ cell with isSelected := true }],
        lockedDirection :=
          if s.selectedCells.length == 1 then some (stepSign cell lastCell)
          else s.lockedDirection } := by
  unfold continueSelection
  rw [hsel, hlast]
  simp [hdup, hadj, hdir]

/-- The cells of an updated grid, as a map over the cells of the grid. -/
theorem flatten_updCell (r c : Int) (f : Cell → Cell) (g : List (List Cell)) :
    (updCell r c f g).flatten =
      g.flatten.map (fun cell => if cell.row == r && cell.col == c then f cell else cell) := by
  unfold updCell
  rw [List.map_flatten]

/-- The cells of the grid after `clearSelection`'s loop: every cell whose
coordinates occur in the gesture has `isSelected` cleared, all others are
untouched. -/
theorem clearSelGrid_flatten (L : List Cell) (g : List (List Cell)) :
    (clearSelGrid g L).flatten =
      g.flatten.map
        (fun cc => if coordHit L cc then { cc with isSelected := false } else cc) := by
  induction L generalizing g with
  | nil =>
    simp [clearSelGrid, coordHit]
  | cons a L ih =>
    have h1 : clearSelGrid g (a :: L) =
        clearSelGrid (updCell a.row a.col (fun cc => { cc with isSelected := false }) g) L :=
      rfl
    rw [h1, ih, flatten_updCell, List.map_map]
    apply List.map_congr_left
    intro cc _
    by_cases hc : (cc.row == a.row && cc.col == a.col) = true
    · by_cases hL : coordHit L { cc with isSelected := false } = true
      · simp [Function.comp, hc, hL, coordHit, List.any_cons]
      · simp only [Bool.not_eq_true] at hL
        simp [Function.comp, hc, hL, coordHit, List.any_cons]
    · simp only [Bool.not_eq_true] at hc
      have hsame : coordHit (a :: L) cc = coordHit L cc := by
        simp [coordHit, List.any_cons, hc]
      by_cases hL : coordHit L cc = true
      · simp [Function.comp, hc, hL, hsame]
      · simp only [Bool.not_eq_true] at hL
        simp [Function.comp, hc, hL, hsame]

/-- `endSelection` always clears the locked direction. -/
theorem endSel_locked_none (s : GameState) : (endSelection s).lockedDirection = none := by
  unfold endSelection
  split
  · rfl
  · split <;> rfl

/-- `continueSelection` keeps the locked direction inside the eight sign
vectors. -/
theorem contSel_lockedOk (s : GameState) (cell : Cell)
    (h : ∀ d, s.lockedDirection = some d → d ∈ eightDirs) :
    ∀ d, (continueSelection s cell).lockedDirection = some d → d ∈ eightDirs := by
  intro d hd
  cases hb : s.isSelecting with
  | false =>
    rw [contSel_not_selecting s cell hb] at hd
    exact h d hd
  | true =>
    cases hlast : s.selectedCells.getLast? with
    | none =>
      rw [contSel_empty s cell hlast] at hd
      exact h d hd
    | some lastCell =>
      by_cases hdup : isDup s cell = true
      · rw [contSel_ret_dup s cell hdup] at hd
        exact h d hd
      · cases hadj : isAdjacentTo cell lastCell with
        | false =>
          rw [contSel_ret_far s cell lastCell hlast hadj] at hd
          exact h d hd
        | true =>
          cases hdir : dirMatches s.lockedDirection (stepSign cell lastCell) with
          | false =>
            rw [contSel_ret_dir s cell lastCell hlast hdir] at hd
            exact h d hd
          | true =>
            rw [contSel_accept s cell lastCell hb hlast (by simpa using hdup) hadj hdir] at hd
            by_cases hlen : (s.selectedCells.length == 1) = true
            · simp only [hlen, if_true] at hd
              obtain rfl : stepSign cell lastCell = d := by simpa using hd
              exact stepSign_mem_eightDirs cell lastCell hadj
            · simp only [Bool.not_eq_true] at hlen
              simp only [hlen, Bool.false_eq_true, if_false] at hd
              exact h d hd

/-- One event keeps the locked direction inside the eight sign vectors. -/
theorem stepEvent_lockedOk (s : GameState) (e : GameEvent)
    (h : ∀ d, s.lockedDirection = some d → d ∈ eightDirs) :
    ∀ d, (stepEvent s e).lockedDirection = some d → d ∈ eightDirs := by
  cases e with
  | start c =>
    intro d hd
    simp [stepEvent, startSelection] at hd
  | extend c => exact contSel_lockedOk s c h
  | finish =>
    intro d hd
    rw [stepEvent, endSel_locked_none] at hd
    cases hd

/-- Any event sequence keeps the locked direction inside the eight sign
vectors. -/
theorem runEvents_lockedOk (es : List GameEvent) :
    ∀ s : GameState, (∀ d, s.lockedDirection = some d → d ∈ eightDirs) →
      ∀ d, (runEvents s es).lockedDirection = some d → d ∈ eightDirs := by
  induction es with
  | nil =>
    intro s h
    simpa [runEvents] using h
  | cons e es ih =>
    intro s h
    have h1 : runEvents s (e :: es) = runEvents (stepEvent s e) es := rfl
    rw [h1]
    exact ih (stepEvent s e) (stepEvent_lockedOk s e h)

/-- C2: the claim's invariant — `isSelected` true exactly on the gestured
cells — FAILS on the code: after `startSelection` at (0,0) and then
`startSelection` at (0,2) with no `endSelection` in between, cell (0,0)
keeps `isSelected = true` although the gesture list holds only (0,2).
This evaluates the code at the failing input; the highlight is orphaned,
exactly the latent bug the design notes flag for `beginSelection`
mid-gesture. -/
theorem c2_orphan_highlight :
    ((runEvents (initGame respABC) [GameEvent.start cA, GameEvent.start cC]).grid.flatten.filter
        (fun cc => cc.isSelected)).map (fun cc => (cc.row, cc.col)) = [(0, 0), (0, 2)] ∧
    (runEvents (initGame respABC) [GameEvent.start cA, GameEvent.start cC]).selectedCells.map
        (fun cc => (cc.row, cc.col)) = [(0, 2)] := by
  exact ⟨by decide, by decide⟩

/-- C6 counterexample: the reachable gesture start(0,1), extend(0,0)
locks the step vector (0,-1), which is none of the four permitted
solution directions — gestures may run along any of the eight
neighbour directions (that is how reversed selections work). -/
theorem c6_counterexample :
    (runEvents (initGame respABC) [GameEvent.start cB, GameEvent.extend cA]).lockedDirection
      = some (0, -1) ∧
    ((0, -1) : Int × Int) ∉ [directionCoordinates DirectionsEnum.H,
      directionCoordinates DirectionsEnum.V, directionCoordinates DirectionsEnum.D1,
      directionCoordinates DirectionsEnum.D2] := by
  exact ⟨by decide, by decide⟩

/-- C6 (amended): in every state reachable by start/extend/finish events
from a freshly loaded grid, the locked direction, when present, is one of
the EIGHT 8-neighbourhood sign vectors (dr, dc) with dr, dc in {-1,0,1},
not both zero — not only the four solution directions. -/
theorem c6_locked_direction_eight (resp : GridResponse) (es : List GameEvent)
    (d : Int × Int)
    (h : (runEvents (initGame resp) es).lockedDirection = some d) :
    d ∈ eightDirs :=
  runEvents_lockedOk es (initGame resp) (fun d' hd' => by simp [initGame] at hd') d h

/-- Witness for C6: the reachable lock (0,-1) is among the eight. -/
theorem c6_locked_direction_eight_witness :
    ((0, -1) : Int × Int) ∈ eightDirs :=
  c6_locked_direction_eight respABC [GameEvent.start cB, GameEvent.extend cA] (0, -1)
    (by decide)

/-- C8: `isGameComplete` is exactly the size comparison between the
found-words set and the target-word list — it depends on nothing but the
two sizes (no per-word membership check). -/
theorem c8_isGameComplete_size (s t : GameState) :
    (isGameComplete s = true ↔ s.foundWords.length = s.words.length) ∧
    (s.foundWords.length = t.foundWords.length → s.words.length = t.words.length →
      isGameComplete s = isGameComplete t) := by
  constructor
  · simp [isGameComplete]
  · intro h1 h2
    simp [isGameComplete, h1, h2]

/-- A complete state: one word, one found word. -/
def stateW8a : GameState :=
  { grid := [], words := [['A', 'B']], foundWords := [['A', 'B']],
    selectedCells := [], isSelecting := false, lockedDirection := none, solution := [] }

/-- A state with entirely different words but the same two sizes. -/
def stateW8b : GameState :=
  { grid := [], words := [['Z', 'Q']], foundWords := [['K']],
    selectedCells := [], isSelecting := false, lockedDirection := none, solution := [] }

/-- Witness for C8 at two concrete states of equal sizes. -/
theorem c8_isGameComplete_size_witness :
    isGameComplete stateW8a = isGameComplete stateW8b :=
  (c8_isGameComplete_size stateW8a stateW8b).2 rfl rfl

/-- C9: in the initial state (no grid loaded) and after `resetGame`, the
empty found-words set and the empty words list have equal size zero, so
`isGameComplete` returns true. -/
theorem c9_initial_complete :
    isGameComplete initialState = true ∧
    ∀ s : GameState, isGameComplete (resetGame s) = true :=
  ⟨rfl, fun _ => rfl⟩

/-- C7: `endSelection` with no active selection, with a gesture of fewer
than 2 cells, or whose candidate fails the word matcher, takes exactly
the cancel path: every gestured cell's `isSelected` flag is cleared, the
gesture empties, the locked direction and `isSelecting` reset, and
`foundWords` and every cell's `isFound` flag are unchanged. -/
theorem c7_cancel_path (s : GameState)
    (h : s.isSelecting = false ∨ s.selectedCells.length < 2 ∨
      checkWord (s.selectedCells.map (fun c => c.letter)) s.selectedCells s.solution
        = none) :
    endSelection s = clearSelection s ∧
    (endSelection s).selectedCells = [] ∧
    (endSelection s).isSelecting = false ∧
    (endSelection s).lockedDirection = none ∧
    (endSelection s).foundWords = s.foundWords ∧
    (∀ cc ∈ (endSelection s).grid.flatten, coordHit s.selectedCells cc = true →
      cc.isSelected = false) ∧
    (endSelection s).grid.flatten.map (fun cc => (cc.row, cc.col, cc.isFound)) =
      s.grid.flatten.map (fun cc => (cc.row, cc.col, cc.isFound)) := by
  have heq : endSelection s = clearSelection s := by
    unfold endSelection
    by_cases hcond : s.isSelecting = false ∨ s.selectedCells.length < 2
    · rw [if_pos hcond]
    · rw [if_neg hcond]
      have hcw : checkWord (s.selectedCells.map (fun c => c.letter)) s.selectedCells
          s.solution = none := by
        rcases h with h1 | h2 | h3
        · exact absurd (Or.inl h1) hcond
        · exact absurd (Or.inr h2) hcond
        · exact h3
      rw [hcw]
  have hg : (clearSelection s).grid = clearSelGrid s.grid s.selectedCells := rfl
  refine ⟨heq, ?_, ?_, ?_, ?_, ?_, ?_⟩ <;> rw [heq]
  · rfl
  · rfl
  · rfl
  · rfl
  · intro cc hmem hhit
    rw [hg, clearSelGrid_flatten] at hmem
    obtain ⟨cc0, hmem0, rfl⟩ := List.mem_map.mp hmem
    cases h0 : coordHit s.selectedCells cc0 with
    | true => simp [h0]
    | false =>
      simp only [h0, Bool.false_eq_true, if_false] at hhit
  · rw [hg, clearSelGrid_flatten, List.map_map]
    apply List.map_congr_left
    intro cc _
    cases h0 : coordHit s.selectedCells cc with
    | true => simp [Function.comp, h0]
    | false => simp [Function.comp, h0]

/-- A mid-gesture state whose `isSelecting` flag is false: endSelection
must cancel. -/
def stateW7 : GameState :=
  { grid := [[{ letter := 'A', row := 0, col := 0, isSelected := true, isFound := false }]],
    words := [['A', 'B']], foundWords := [['X']],
    selectedCells := [{ letter := 'A', row := 0, col := 0, isSelected := true, isFound := false }],
    isSelecting := false, lockedDirection := some (0, 1), solution := [] }

/-- Witness for C7 at a concrete non-selecting state. -/
theorem c7_cancel_path_witness :
    endSelection stateW7 = clearSelection stateW7 ∧
    (endSelection stateW7).selectedCells = [] ∧
    (endSelection stateW7).isSelecting = false ∧
    (endSelection stateW7).lockedDirection = none ∧
    (endSelection stateW7).foundWords = stateW7.foundWords ∧
    (∀ cc ∈ (endSelection stateW7).grid.flatten, coordHit stateW7.selectedCells cc = true →
      cc.isSelected = false) ∧
    (endSelection stateW7).grid.flatten.map (fun cc => (cc.row, cc.col, cc.isFound)) =
      stateW7.grid.flatten.map (fun cc => (cc.row, cc.col, cc.isFound)) :=
  c7_cancel_path stateW7 (Or.inl rfl)

/-- C4: with an active gesture, `continueSelection` on a repeated cell, a
non-adjacent cell, or a cell whose step sign differs from the locked
direction leaves the whole game state unchanged (hence gesture length,
cell flags, foundWords, direction and `isSelecting` as well). -/
theorem c4_rejected_unchanged (s : GameState) (cell lastCell : Cell)
    (hsel : s.isSelecting = true)
    (hlast : s.selectedCells.getLast? = some lastCell)
    (hrej : isDup s cell = true ∨ isAdjacentTo cell lastCell = false ∨
      (∃ d, s.lockedDirection = some d ∧ stepSign cell lastCell ≠ d)) :
    continueSelection s cell = s ∧
    (continueSelection s cell).selectedCells.length = s.selectedCells.length := by
  have heq : continueSelection s cell = s := by
    rcases hrej with h1 | h2 | ⟨d, hd, hne⟩
    · exact contSel_ret_dup s cell h1
    · exact contSel_ret_far s cell lastCell hlast h2
    · by_cases hdup : isDup s cell = true
      · exact contSel_ret_dup s cell hdup
      · cases hadj : isAdjacentTo cell lastCell with
        | false => exact contSel_ret_far s cell lastCell hlast hadj
        | true =>
          apply contSel_ret_dir s cell lastCell hlast
          rw [hd]
          simp only [dirMatches, beq_eq_false_iff_ne]
          exact Ne.symm hne
  exact ⟨heq, by rw [heq]⟩

/-- A single-cell active gesture at (0,0). -/
def aW4 : Cell := { letter := 'A', row := 0, col := 0, isSelected := true, isFound := false }

/-- A state mid-gesture with only aW4 selected. -/
def stateW4 : GameState :=
  { grid := [[aW4]], words := [], foundWords := [], selectedCells := [aW4],
    isSelecting := true, lockedDirection := none, solution := [] }

/-- Witness for C4: re-sending the gestured cell changes nothing. -/
theorem c4_rejected_unchanged_witness :
    continueSelection stateW4 aW4 = stateW4 ∧
    (continueSelection stateW4 aW4).selectedCells.length = stateW4.selectedCells.length :=
  c4_rejected_unchanged stateW4 aW4 aW4 rfl rfl (Or.inl (by decide))

/-- Rejection of a step that breaks the locked direction, whatever the
gesture looks like. -/
theorem contSel_reject_locked (s : GameState) (cell : Cell) (d : Int × Int)
    (hd : s.lockedDirection = some d)
    (hstep : ∀ lastCell, s.selectedCells.getLast? = some lastCell →
      stepSign cell lastCell ≠ d) :
    continueSelection s cell = s := by
  cases hb : s.isSelecting with
  | false => exact contSel_not_selecting s cell hb
  | true =>
    cases hlast : s.selectedCells.getLast? with
    | none => exact contSel_empty s cell hlast
    | some lastCell =>
      by_cases hdup : isDup s cell = true
      · exact contSel_ret_dup s cell hdup
      · cases hadj : isAdjacentTo cell lastCell with
        | false => exact contSel_ret_far s cell lastCell hlast hadj
        | true =>
          apply contSel_ret_dir s cell lastCell hlast
          rw [hd]
          simp only [dirMatches, beq_eq_false_iff_ne]
          exact Ne.symm (hstep lastCell hlast)

/-- C5: the locked direction is established exactly when the second cell
is accepted, as the sign step from the first cell to it; any call that
does not append a second cell leaves the locked direction unchanged; and
once locked to d — in particular to any of the four enumerated
directions — a candidate whose step sign differs from d is rejected
outright. -/
theorem c5_direction_lock (s : GameState) (cell a : Cell) (d : Int × Int) :
    (s.isSelecting = true → s.selectedCells = [a] → s.lockedDirection = none →
      isDup s cell = false → isAdjacentTo cell a = true →
      (continueSelection s cell).lockedDirection = some (stepSign cell a)) ∧
    (s.selectedCells.length ≠ 1 →
      (continueSelection s cell).lockedDirection = s.lockedDirection) ∧
    (s.lockedDirection = some d →
      (∀ lastCell, s.selectedCells.getLast? = some lastCell →
        stepSign cell lastCell ≠ d) →
      continueSelection s cell = s) ∧
    (∀ e : DirectionsEnum, s.lockedDirection = some (directionCoordinates e) →
      (∀ lastCell, s.selectedCells.getLast? = some lastCell →
        stepSign cell lastCell ≠ directionCoordinates e) →
      continueSelection s cell = s) := by
  refine ⟨?_, ?_, ?_, ?_⟩
  · intro hsel hcells hld hdup hadj
    have hlast : s.selectedCells.getLast? = some a := by rw [hcells]; rfl
    have hlen : (s.selectedCells.length == 1) = true := by rw [hcells]; rfl
    rw [contSel_accept s cell a hsel hlast hdup hadj (by rw [hld]; rfl)]
    simp [hlen]
  · intro hlen
    cases hb : s.isSelecting with
    | false => rw [contSel_not_selecting s cell hb]
    | true =>
      cases hlast : s.selectedCells.getLast? with
      | none => rw [contSel_empty s cell hlast]
      | some lastCell =>
        by_cases hdup : isDup s cell = true
        · rw [contSel_ret_dup s cell hdup]
        · cases hadj : isAdjacentTo cell lastCell with
          | false => rw [contSel_ret_far s cell lastCell hlast hadj]
          | true =>
            cases hdir : dirMatches s.lockedDirection (stepSign cell lastCell) with
            | false => rw [contSel_ret_dir s cell lastCell hlast hdir]
            | true =>
              rw [contSel_accept s cell lastCell hb hlast (by simpa using hdup) hadj hdir]
              have hlen' : (s.selectedCells.length == 1) = false :=
                beq_eq_false_iff_ne.mpr hlen
              simp [hlen']
  · exact contSel_reject_locked s cell d
  · exact fun e => contSel_reject_locked s cell (directionCoordinates e)

/-- A single-cell active gesture used as the C5 witness start. -/
def aW5 : Cell := { letter := 'A', row := 0, col := 0, isSelected := true, isFound := false }

/-- An adjacent second cell to the right of aW5. -/
def cellW5 : Cell := { letter := 'B', row := 0, col := 1, isSelected := false, isFound := false }

/-- The C5 witness state: selecting, gesture [aW5], nothing locked. -/
def stateW5 : GameState :=
  { grid := [[aW5, cellW5]], words := [], foundWords := [], selectedCells := [aW5],
    isSelecting := true, lockedDirection := none, solution := [] }

/-- Witness for C5: accepting the second cell locks its sign step. -/
theorem c5_direction_lock_witness :
    (continueSelection stateW5 cellW5).lockedDirection = some (stepSign cellW5 aW5) :=
  (c5_direction_lock stateW5 cellW5 aW5 (0, 1)).1 rfl rfl rfl (by decide) (by decide)

/-- C10: `continueSelection` never inspects `isFound`.  First: its result
is identical — grid, foundWords, isSelecting, lockedDirection, and the
observable part of the gesture list — whatever `isFound` flag the
incoming cell carries.  Second: a found cell that passes the duplicate,
adjacency and direction tests is appended exactly like any other cell;
the core relies on the input adapter to suppress events on found cells. -/
theorem c10_ignores_isFound (s : GameState) (cell lastCell : Cell) (b₁ b₂ : Bool) :
    ((continueSelection s { cell with isFound := b₁ }).grid =
        (continueSelection s { cell with isFound := b₂ }).grid ∧
      (continueSelection s { cell with isFound := b₁ }).foundWords =
        (continueSelection s { cell with isFound := b₂ }).foundWords ∧
      (continueSelection s { cell with isFound := b₁ }).isSelecting =
        (continueSelection s { cell with isFound := b₂ }).isSelecting ∧
      (continueSelection s { cell with isFound := b₁ }).lockedDirection =
        (continueSelection s { cell with isFound := b₂ }).lockedDirection ∧
      (continueSelection s { cell with isFound := b₁ }).selectedCells.map
          (fun c => (c.letter, c.row, c.col, c.isSelected)) =
        (continueSelection s { cell with isFound := b₂ }).selectedCells.map
          (fun c => (c.letter, c.row, c.col, c.isSelected))) ∧
    (s.isSelecting = true → s.selectedCells.getLast? = some lastCell →
      isDup s cell = false → isAdjacentTo cell lastCell = true →
      dirMatches s.lockedDirection (stepSign cell lastCell) = true →
      cell.isFound = true →
      (continueSelection s cell).selectedCells =
        s.selectedCells ++ [{ cell with isSelected := true }]) := by
  constructor
  · cases hb : s.isSelecting with
    | false =>
      have e₁ := contSel_not_selecting s { cell with isFound := b₁ } hb
      have e₂ := contSel_not_selecting s { cell with isFound := b₂ } hb
      rw [e₁, e₂]
      exact ⟨rfl, rfl, rfl, rfl, rfl⟩
    | true =>
      cases hlast : s.selectedCells.getLast? with
      | none =>
        have e₁ := contSel_empty s { cell with isFound := b₁ } hlast
        have e₂ := contSel_empty s { cell with isFound := b₂ } hlast
        rw [e₁, e₂]
        exact ⟨rfl, rfl, rfl, rfl, rfl⟩
      | some lc =>
        by_cases hdup : isDup s cell = true
        · have e₁ := contSel_ret_dup s { cell with isFound := b₁ } hdup
          have e₂ := contSel_ret_dup s { cell with isFound := b₂ } hdup
          rw [e₁, e₂]
          exact ⟨rfl, rfl, rfl, rfl, rfl⟩
        · have hdup' : isDup s cell = false := by simpa using hdup
          cases hadj : isAdjacentTo cell lc with
          | false =>
            have e₁ := contSel_ret_far s { cell with isFound := b₁ } lc hlast hadj
            have e₂ := contSel_ret_far s { cell with isFound := b₂ } lc hlast hadj
            rw [e₁, e₂]
            exact ⟨rfl, rfl, rfl, rfl, rfl⟩
          | true =>
            cases hdir : dirMatches s.lockedDirection (stepSign cell lc) with
            | false =>
              have e₁ := contSel_ret_dir s { cell with isFound := b₁ } lc hlast hdir
              have e₂ := contSel_ret_dir s { cell with isFound := b₂ } lc hlast hdir
              rw [e₁, e₂]
              exact ⟨rfl, rfl, rfl, rfl, rfl⟩
            | true =>
              have e₁ := contSel_accept s { cell with isFound := b₁ } lc hb hlast hdup' hadj hdir
              have e₂ := contSel_accept s { cell with isFound := b₂ } lc hb hlast hdup' hadj hdir
              rw [e₁, e₂]
              refine ⟨rfl, rfl, rfl, rfl, ?_⟩
              simp [List.map_append]
  · intro hsel hlast hdup hadj hdir _
    rw [contSel_accept s cell lastCell hsel hlast hdup hadj hdir]

/-- The C10 witness gesture head. -/
def aW10 : Cell := { letter := 'A', row := 0, col := 0, isSelected := true, isFound := false }

/-- A cell already marked found, adjacent to aW10. -/
def cellW10 : Cell := { letter := 'B', row := 0, col := 1, isSelected := false, isFound := true }

/-- The C10 witness state: selecting, gesture [aW10]. -/
def stateW10 : GameState :=
  { grid := [[aW10, cellW10]], words := [], foundWords := [], selectedCells := [aW10],
    isSelecting := true, lockedDirection := none, solution := [] }

/-- Witness for C10: the found cell cellW10 is appended to the gesture. -/
theorem c10_ignores_isFound_witness :
    (continueSelection stateW10 cellW10).selectedCells =
      stateW10.selectedCells ++ [{ cellW10 with isSelected := true }] :=
  (c10_ignores_isFound stateW10 cellW10 aW10 true true).2 rfl rfl (by decide) (by decide)
    rfl rfl

/-- C1 (amended): `checkWord` returns a solution's word only if, besides
the letter equality, the CODE's endpoint check holds for that solution:
either the candidate's first cell equals the solution's start (the last
cell is NOT checked on this forward path), or the candidate's last cell
equals the start and its first cell equals the computed end; a candidate
for which no solution passes these checks yields none. -/
theorem c1_checkWord_endpoints (word : List Char) (cells : List Cell)
    (sols : List WordSolution) :
    (∀ v, checkWord word cells sols = some v →
      ∃ sol ∈ sols, ∃ first last : Cell,
        cells.head? = some first ∧ cells.getLast? = some last ∧
        v = upper sol.mot ∧
        (upper sol.mot = upper word ∨ upper sol.mot = upper word.reverse) ∧
        ((first.row = sol.start.1 ∧ first.col = sol.start.2) ∨
         (last.row = sol.start.1 ∧ last.col = sol.start.2 ∧
          first.row = expectedEndRow sol ∧ first.col = expectedEndCol sol))) ∧
    (∀ first last : Cell, cells.head? = some first → cells.getLast? = some last →
      (∀ sol ∈ sols,
        ¬((upper sol.mot = upper word ∨ upper sol.mot = upper word.reverse) ∧
          ((first.row = sol.start.1 ∧ first.col = sol.start.2) ∨
           (last.row = sol.start.1 ∧ last.col = sol.start.2 ∧
            first.row = expectedEndRow sol ∧ first.col = expectedEndCol sol)))) →
      checkWord word cells sols = none) := by
  constructor
  · intro v hv
    cases hh : cells.head? with
    | none =>
      rw [List.head?_eq_none_iff] at hh
      subst hh
      have hnone : checkWord word [] sols = none := rfl
      rw [hnone] at hv
      cases hv
    | some first =>
      cases hl : cells.getLast? with
      | none =>
        rw [List.getLast?_eq_none_iff] at hl
        subst hl
        cases hh
      | some last =>
        rw [checkWord_eq word cells sols first last hh hl] at hv
        cases hfind : sols.find? (solMatch (upper word) (upper word.reverse) first last) with
        | none =>
          rw [hfind] at hv
          cases hv
        | some sol =>
          rw [hfind] at hv
          have hv' : upper sol.mot = v := by simpa using hv
          have hm := List.mem_of_find?_eq_some hfind
          have hp := (solMatch_iff _ _ _ _ _).mp (List.find?_some hfind)
          exact ⟨sol, hm, first, last, rfl, rfl, hv'.symm, hp.1, hp.2⟩
  · intro first last hh hl hall
    rw [checkWord_eq word cells sols first last hh hl]
    have hfind : sols.find? (solMatch (upper word) (upper word.reverse) first last)
        = none := by
      rw [List.find?_eq_none]
      intro sol hmem hpass
      exact hall sol hmem ((solMatch_iff _ _ _ _ _).mp hpass)
    rw [hfind]
    rfl

/-- C1 counterexample: the candidate spells the solution word and its
first cell sits on the solution's start, but its last cell (5,5) is far
from the computed end (0,1); the spec's endpoint check (forward AND
reverse) is false, yet `checkWord` returns the word instead of none —
the code's forward branch never looks at the last cell. -/
theorem c1_counterexample :
    checkWord ['A', 'B'] cellsAB [solAB] = some ['A', 'B'] ∧
    upper (cellsAB.map (fun c => c.letter)) = upper solAB.mot ∧
    cellsAB.head? = some cAB0 ∧ cellsAB.getLast? = some cAB5 ∧
    specEndpointOk solAB cAB0 cAB5 = false := by
  exact ⟨by decide, by decide, by decide, by decide, by decide⟩

/-- Witness for C1: a successful `checkWord` call, unpacked through the
soundness direction. -/
theorem c1_checkWord_endpoints_witness :
    ∃ sol ∈ [solAB], ∃ first last : Cell,
      cellsAB.head? = some first ∧ cellsAB.getLast? = some last ∧
      (['A', 'B'] : List Char) = upper sol.mot ∧
      (upper sol.mot = upper ['A', 'B'] ∨
        upper sol.mot = upper (['A', 'B'] : List Char).reverse) ∧
      ((first.row = sol.start.1 ∧ first.col = sol.start.2) ∨
       (last.row = sol.start.1 ∧ last.col = sol.start.2 ∧
        first.row = expectedEndRow sol ∧ first.col = expectedEndCol sol)) :=
  (c1_checkWord_endpoints ['A', 'B'] cellsAB [solAB]).1 ['A', 'B'] (by decide)

/-- C3 (amended): `checkWord` is invariant under candidate reversal for a
solution whose start and computed end correspond to the candidate's
endpoints, PROVIDED every solution in the list whose word matches the
candidate's letters (forward or reversed) carries the same word text;
then the forward-selected candidate and the reversed candidate both
resolve to that solution's word. -/
theorem c3_reversal_invariance (cells : List Cell) (sols : List WordSolution)
    (sol : WordSolution) (first last : Cell)
    (hmem : sol ∈ sols)
    (h1 : cells.head? = some first)
    (h2 : cells.getLast? = some last)
    (hletters : upper sol.mot = upper (cells.map (fun c => c.letter)) ∨
      upper sol.mot = upper (cells.map (fun c => c.letter)).reverse)
    (hends :
      (first.row = sol.start.1 ∧ first.col = sol.start.2 ∧
        last.row = expectedEndRow sol ∧ last.col = expectedEndCol sol) ∨
      (last.row = sol.start.1 ∧ last.col = sol.start.2 ∧
        first.row = expectedEndRow sol ∧ first.col = expectedEndCol sol))
    (huniq : ∀ s' ∈ sols,
      (upper s'.mot = upper (cells.map (fun c => c.letter)) ∨
       upper s'.mot = upper (cells.map (fun c => c.letter)).reverse) →
      upper s'.mot = upper sol.mot) :
    checkWord (cells.map (fun c => c.letter)) cells sols = some (upper sol.mot) ∧
    checkWord (cells.map (fun c => c.letter)).reverse cells.reverse sols =
      some (upper sol.mot) := by
  constructor
  · refine checkWord_eq_of_uniq _ cells sols sol first last h1 h2 hmem ?_ huniq
    rw [solMatch_iff]
    refine ⟨hletters, ?_⟩
    rcases hends with ⟨ha1, ha2, _, _⟩ | ⟨hb1, hb2, hb3, hb4⟩
    · exact Or.inl ⟨ha1, ha2⟩
    · exact Or.inr ⟨hb1, hb2, hb3, hb4⟩
  · have h1' : cells.reverse.head? = some last := by rw [List.head?_reverse, h2]
    have h2' : cells.reverse.getLast? = some first := by rw [List.getLast?_reverse, h1]
    refine checkWord_eq_of_uniq _ cells.reverse sols sol last first h1' h2' hmem ?_ ?_
    · rw [solMatch_iff]
      constructor
      · rw [List.reverse_reverse]
        exact hletters.symm
      · rcases hends with ⟨ha1, ha2, ha3, ha4⟩ | ⟨hb1, hb2, hb3, hb4⟩
        · exact Or.inr ⟨ha1, ha2, ha3, ha4⟩
        · exact Or.inl ⟨hb1, hb2⟩
    · intro s' hs' hl
      rw [List.reverse_reverse] at hl
      exact huniq s' hs' hl.symm

/-- C3 counterexample: the candidate's endpoints correspond exactly to
s2C3 (traversed backwards) and its letters match, both directions of
both solutions are legal, yet the forward candidate resolves to "AB"
(through s1C3's first-cell-only forward check) while the reversed
candidate resolves to "BA" — reversal changes the matcher's answer. -/
theorem c3_counterexample :
    checkWord (cellsC3.map (fun c => c.letter)) cellsC3 [s1C3, s2C3] = some ['A', 'B'] ∧
    checkWord (cellsC3.map (fun c => c.letter)).reverse cellsC3.reverse [s1C3, s2C3] =
      some ['B', 'A'] ∧
    (['A', 'B'] : List Char) ≠ ['B', 'A'] ∧
    s2C3 ∈ [s1C3, s2C3] ∧
    cellsC3.head? =
      some { letter := 'A', row := 1, col := 2, isSelected := false, isFound := false } ∧
    cellsC3.getLast? =
      some { letter := 'B', row := 1, col := 1, isSelected := false, isFound := false } ∧
    ((1 : Int) = s2C3.start.1 ∧ (1 : Int) = s2C3.start.2 ∧
      (1 : Int) = expectedEndRow s2C3 ∧ (2 : Int) = expectedEndCol s2C3) ∧
    upper s2C3.mot = upper (cellsC3.map (fun c => c.letter)).reverse ∧
    s1C3.direction ∈ [directionCoordinates DirectionsEnum.H,
      directionCoordinates DirectionsEnum.V, directionCoordinates DirectionsEnum.D1,
      directionCoordinates DirectionsEnum.D2] ∧
    s2C3.direction ∈ [directionCoordinates DirectionsEnum.H,
      directionCoordinates DirectionsEnum.V, directionCoordinates DirectionsEnum.D1,
      directionCoordinates DirectionsEnum.D2] := by
  exact ⟨by decide, by decide, by decide, by decide, by decide, by decide, by decide,
    by decide, by decide, by decide⟩

/-- Witness for C3: "CAT" selected forward or backward over the same
cells resolves to "CAT" against the single-solution list. -/
theorem c3_reversal_invariance_witness :
    checkWord (cellsCAT.map (fun c => c.letter)) cellsCAT [solCAT] = some (upper solCAT.mot) ∧
    checkWord (cellsCAT.map (fun c => c.letter)).reverse cellsCAT.reverse [solCAT] =
      some (upper solCAT.mot) :=
  c3_reversal_invariance cellsCAT [solCAT] solCAT
    { letter := 'C', row := 0, col := 0, isSelected := false, isFound := false }
    { letter := 'T', row := 0, col := 2, isSelected := false, isFound := false }
    (by decide) (by decide) (by decide) (by decide) (by decide) (by decide)
